import Mathlib

/-!
Verification development for the Lotus Mansion video downloader.

This file gives a shallow embedding of the parts of the repository that the
checked properties are about:

* the URL validation patterns (`src/utils/validation.ts`),
* filename sanitization (`src/utils/format.ts`),
* the YouTube and Instagram backend `download` control flow
  (`src/platforms/youtube.ts`, `src/platforms/instagram.ts`),
* the dispatcher `VideoDownloader` (classification, `download`,
  `batchDownload`) and the scheduled-download controller
  (`scheduleDownload` and its control surface) from the package index.

JavaScript regular expressions are embedded as deterministic matchers over
`List Char`; each pattern group is alternation/option-free in a way that makes
greedy matching equivalent to backtracking (every character class excludes the
character that begins the literal following it), which is noted per pattern.
Promise-returning functions are embedded as `Except r a` where `Except.error`
models a rejected promise and `Except.ok` a resolved one.  Network and stream
collaborators (ytdl, axios) are abstracted as environment records carrying
their outcomes.
-/

deriving instance DecidableEq for Except

namespace Lotus

/-! ## Character classes and scanning helpers (for the regex embeddings) -/

/-- Drop the literal `pat` from the front of `s`, or fail. -/
def dropLit : List Char → List Char → Option (List Char)
  | [], s => some s
  | _, [] => none
  | p :: ps, c :: cs => if c = p then dropLit ps cs else none

/-- Regex `.` (any character except a JavaScript line terminator). -/
def isDotChar (c : Char) : Bool :=
  !(c == '\n' || c == '\r' || c == '\u2028' || c == '\u2029')

/-- Regex `.+$`: one or more non-line-terminator characters, to the end. -/
def dotPlusEnd (s : List Char) : Bool :=
  !s.isEmpty && s.all isDotChar

/-- Character class `[a-zA-Z0-9_-]` (video-id characters). -/
def isIdChar (c : Char) : Bool :=
  c.isAlpha || c.isDigit || c == '_' || c == '-'

/-- Character class `[a-zA-Z0-9]`. -/
def isAlnumChar (c : Char) : Bool := c.isAlpha || c.isDigit

/-- Character class `[a-zA-Z0-9_.]` (TikTok user names). -/
def isTikTokUserChar (c : Char) : Bool := isAlnumChar c || c == '_' || c == '.'

/-- Character class `[a-zA-Z0-9_]` (Twitter handles). -/
def isWordChar (c : Char) : Bool := isAlnumChar c || c == '_'

/-- Character class `[a-zA-Z0-9.]` (Facebook page names). -/
def isFbNameChar (c : Char) : Bool := isAlnumChar c || c == '.'

/-- Regex `([a-zA-Z0-9_-]{11})$`: exactly 11 id characters, then the end. -/
def exactId11 (s : List Char) : Bool :=
  s.length == 11 && s.all isIdChar

/-- Regex `\/?$`: an optional final slash, then the end. -/
def optSlashEnd (s : List Char) : Bool :=
  s.isEmpty || s == ['/']

/-- Match a literal, then continue with `k`.  Embeds a regex literal that
follows a character class not containing the literal's first character, so
greedy scanning is equivalent to backtracking. -/
def litThen (lit : String) (k : List Char → Bool) (s : List Char) : Bool :=
  match dropLit lit.data s with
  | some r => k r
  | none => false

/-- Regex `cls+` followed by `k`.  Greedy: sound whenever `k` starts with a
character outside `cls`, which holds for every use below. -/
def plusThen (cls : Char → Bool) (k : List Char → Bool) (s : List Char) : Bool :=
  !(s.takeWhile cls).isEmpty && k (s.dropWhile cls)

/-- Optional group `(https?:\/\/)?`.  Committing to the longest prefix is
equivalent to backtracking: no pattern's host part begins with `http`. -/
def stripProto (s : List Char) : List Char :=
  match dropLit "https://".data s with
  | some r => r
  | none =>
    match dropLit "http://".data s with
    | some r => r
    | none => s

/-- Optional group `(www\.)?`.  No host alternative begins with `www.`, so
committing is equivalent to backtracking. -/
def stripWww (s : List Char) : List Char :=
  match dropLit "www.".data s with
  | some r => r
  | none => s

/-- An anchored `^(https?:\/\/)?(www\.)?(host1|host2|…)…$` pattern: strip the
optional protocol and `www.`, try each host alternative, continue with `k`. -/
def matchUrl (hosts : List String) (k : List Char → Bool) (url : String) : Bool :=
  let s := stripWww (stripProto url.data)
  hosts.any fun h =>
    match dropLit h.data s with
    | some r => k r
    | none => false

/-! ## URL validation (`src/utils/validation.ts`) -/

/-- `/^(https?:\/\/)?(www\.)?(youtube\.com|youtu\.be)\/.+$/` -/
def ytPattern1 (url : String) : Bool :=
  matchUrl ["youtube.com", "youtu.be"] (litThen "/" dotPlusEnd) url

/-- `/^(https?:\/\/)?(www\.)?youtube\.com\/watch\?v=([a-zA-Z0-9_-]{11})$/` -/
def ytPattern2 (url : String) : Bool :=
  matchUrl ["youtube.com"] (litThen "/watch?v=" exactId11) url

/-- `/^(https?:\/\/)?(www\.)?youtu\.be\/([a-zA-Z0-9_-]{11})$/` -/
def ytPattern3 (url : String) : Bool :=
  matchUrl ["youtu.be"] (litThen "/" exactId11) url

/-- `/^(https?:\/\/)?(www\.)?youtube\.com\/shorts\/([a-zA-Z0-9_-]{11})$/` -/
def ytPattern4 (url : String) : Bool :=
  matchUrl ["youtube.com"] (litThen "/shorts/" exactId11) url

/-- `isYouTubeURL`: some pattern in `YOUTUBE_PATTERNS` matches. -/
def isYouTubeURL (url : String) : Bool :=
  ytPattern1 url || ytPattern2 url || ytPattern3 url || ytPattern4 url

/-- `/^(https?:\/\/)?(www\.)?(tiktok\.com)\/.+$/` -/
def ttPattern1 (url : String) : Bool :=
  matchUrl ["tiktok.com"] (litThen "/" dotPlusEnd) url

/-- `/^(https?:\/\/)?(www\.)?vm\.tiktok\.com\/[a-zA-Z0-9]+\/?$/` -/
def ttPattern2 (url : String) : Bool :=
  matchUrl ["vm.tiktok.com"] (litThen "/" (plusThen isAlnumChar optSlashEnd)) url

/-- `/^(https?:\/\/)?(www\.)?tiktok\.com\/@[a-zA-Z0-9_.]+\/video\/\d+\/?$/` -/
def ttPattern3 (url : String) : Bool :=
  matchUrl ["tiktok.com"]
    (litThen "/@" (plusThen isTikTokUserChar
      (litThen "/video/" (plusThen Char.isDigit optSlashEnd)))) url

/-- `isTikTokURL`: some pattern in `TIKTOK_PATTERNS` matches. -/
def isTikTokURL (url : String) : Bool :=
  ttPattern1 url || ttPattern2 url || ttPattern3 url

/-- `/^(https?:\/\/)?(www\.)?(instagram\.com)\/.+$/` -/
def igPattern1 (url : String) : Bool :=
  matchUrl ["instagram.com"] (litThen "/" dotPlusEnd) url

/-- `/^(https?:\/\/)?(www\.)?instagram\.com\/p\/[a-zA-Z0-9_-]+\/?$/` -/
def igPattern2 (url : String) : Bool :=
  matchUrl ["instagram.com"] (litThen "/p/" (plusThen isIdChar optSlashEnd)) url

/-- `/^(https?:\/\/)?(www\.)?instagram\.com\/reel\/[a-zA-Z0-9_-]+\/?$/` -/
def igPattern3 (url : String) : Bool :=
  matchUrl ["instagram.com"] (litThen "/reel/" (plusThen isIdChar optSlashEnd)) url

/-- `isInstagramURL`: some pattern in `INSTAGRAM_PATTERNS` matches. -/
def isInstagramURL (url : String) : Bool :=
  igPattern1 url || igPattern2 url || igPattern3 url

/-- `/^(https?:\/\/)?(www\.)?(twitter\.com|x\.com)\/.+$/` -/
def twPattern1 (url : String) : Bool :=
  matchUrl ["twitter.com", "x.com"] (litThen "/" dotPlusEnd) url

/-- `/^(https?:\/\/)?(www\.)?(twitter\.com|x\.com)\/[a-zA-Z0-9_]+\/status\/\d+\/?$/` -/
def twPattern2 (url : String) : Bool :=
  matchUrl ["twitter.com", "x.com"]
    (litThen "/" (plusThen isWordChar
      (litThen "/status/" (plusThen Char.isDigit optSlashEnd)))) url

/-- `isTwitterURL`: some pattern in `TWITTER_PATTERNS` matches. -/
def isTwitterURL (url : String) : Bool :=
  twPattern1 url || twPattern2 url

/-- `/^(https?:\/\/)?(www\.)?(facebook\.com|fb\.watch)\/.+$/` -/
def fbPattern1 (url : String) : Bool :=
  matchUrl ["facebook.com", "fb.watch"] (litThen "/" dotPlusEnd) url

/-- `/^(https?:\/\/)?(www\.)?facebook\.com\/[a-zA-Z0-9.]+\/videos\/\d+\/?$/` -/
def fbPattern2 (url : String) : Bool :=
  matchUrl ["facebook.com"]
    (litThen "/" (plusThen isFbNameChar
      (litThen "/videos/" (plusThen Char.isDigit optSlashEnd)))) url

/-- `/^(https?:\/\/)?(www\.)?fb\.watch\/[a-zA-Z0-9_-]+\/?$/` -/
def fbPattern3 (url : String) : Bool :=
  matchUrl ["fb.watch"] (litThen "/" (plusThen isIdChar optSlashEnd)) url

/-- `isFacebookURL`: some pattern in `FACEBOOK_PATTERNS` matches. -/
def isFacebookURL (url : String) : Bool :=
  fbPattern1 url || fbPattern2 url || fbPattern3 url

/-- `isSupportedURL`: the URL matches some platform's patterns. -/
def isSupportedURL (url : String) : Bool :=
  isYouTubeURL url || isTikTokURL url || isInstagramURL url ||
    isTwitterURL url || isFacebookURL url

/-! ## Platform tags and the dispatcher's classifier -/

/-- The `Platform` enum. -/
inductive Platform where
  | youtube | tiktok | instagram | twitter | facebook
deriving DecidableEq, Repr

/-- `VideoDownloader.getDownloaderForUrl`, returning the platform tag of the
chosen backend.  The constructor registers a backend for all five platforms,
so `this.downloaders.get(p)` always succeeds and the result is `null` exactly
when no platform's check fires. -/
def getDownloaderForUrl (url : String) : Option Platform :=
  if isYouTubeURL url then some Platform.youtube
  else if isTikTokURL url then some Platform.tiktok
  else if isInstagramURL url then some Platform.instagram
  else if isTwitterURL url then some Platform.twitter
  else if isFacebookURL url then some Platform.facebook
  else none

/-- `VideoDownloader.isSupported`, which delegates to `isSupportedURL`. -/
def isSupported (url : String) : Bool := isSupportedURL url

/-! ## Data model (`src/types.ts`, values as listed in the README) -/

/-- The `Quality` enum. -/
inductive Quality where
  | highest | lowest | audioOnly | hd | sd
deriving DecidableEq, Repr

/-- The `Format` enum; `value` is its string enum value. -/
inductive Format where
  | mp4 | mp3 | webm
deriving DecidableEq, Repr

/-- String value of a `Format` member (`MP4 = 'mp4'` and so on). -/
def Format.value : Format → String
  | .mp4 => "mp4"
  | .mp3 => "mp3"
  | .webm => "webm"

/-- The fields of `VideoInfo` that the embedded operations read. -/
structure VideoInfo where
  title : String
  author : String := ""
  url : String := ""
deriving DecidableEq, Repr

/-- `DownloadOptions`: every field optional, defaults resolved inside
`download`. -/
structure DownloadOptions where
  quality : Option Quality := none
  format : Option Format := none
  outputPath : Option String := none
  fileName : Option String := none
  includeAudio : Option Bool := none
  includeVideo : Option Bool := none
deriving DecidableEq, Repr

/-- `DownloadResult`.  `error` holds the message of the attached `Error`
object when one is present. -/
structure DownloadResult where
  success : Bool
  message : String
  filePath : Option String := none
  videoInfo : Option VideoInfo := none
  error : Option String := none
  url : Option String := none
deriving DecidableEq, Repr

/-! ## Filename utilities (`src/utils/format.ts`) -/

/-- JavaScript's `\s` class (also the set trimmed by `String.prototype.trim`). -/
def isJsWhitespace (c : Char) : Bool :=
  [' ', '\t', '\n', '\x0b', '\x0c', '\r', '\u00a0', '\u1680',
   '\u2000', '\u2001', '\u2002', '\u2003', '\u2004', '\u2005', '\u2006',
   '\u2007', '\u2008', '\u2009', '\u200a', '\u2028', '\u2029', '\u202f',
   '\u205f', '\u3000', '\ufeff'].contains c

/-- The class `[/\\?%*:|"<>]` of `sanitizeFilename`. -/
def isInvalidFilenameChar (c : Char) : Bool :=
  ['/', '\\', '?', '%', '*', ':', '|', '\"', '<', '>'].contains c

/-- `.replace(/[/\\?%*:|"<>]/g, '-')`. -/
def replaceInvalidChars (s : String) : String :=
  ⟨s.data.map fun c => if isInvalidFilenameChar c then '-' else c⟩

/-- Core of `.replace(/\s+/g, '_')`: emit `_` at the start of each
whitespace run, drop the run's remaining characters. -/
def collapseWsAux : List Char → Bool → List Char
  | [], _ => []
  | c :: cs, prevWs =>
    if isJsWhitespace c then
      if prevWs then collapseWsAux cs true else '_' :: collapseWsAux cs true
    else c :: collapseWsAux cs false

/-- `.replace(/\s+/g, '_')`. -/
def replaceWsRuns (s : String) : String := ⟨collapseWsAux s.data false⟩

/-- `String.prototype.trim`. -/
def jsTrim (s : String) : String :=
  ⟨((s.data.dropWhile isJsWhitespace).reverse.dropWhile isJsWhitespace).reverse⟩

/-- `sanitizeFilename`: invalid characters to `-`, whitespace runs to `_`,
then trim. -/
def sanitizeFilename (filename : String) : String :=
  jsTrim (replaceWsRuns (replaceInvalidChars filename))

/-- ASCII `toLowerCase` (the enum values it is applied to are ASCII). -/
def toLowerAscii (s : String) : String := ⟨s.data.map Char.toLower⟩

/-- `generateFilename`: sanitized title, dot, lowercased format value. -/
def generateFilename (title : String) (format : Format) : String :=
  sanitizeFilename title ++ "." ++ toLowerAscii format.value

/-- Node's `path.join` on two segments: drop empty segments, join with `/`,
and return `"."` when nothing remains.  (`..`/separator normalization is
omitted; it never yields the empty string either, which is the only property
used here.) -/
def pathJoin (a b : String) : String :=
  let joined := String.intercalate "/" ([a, b].filter fun x => x != "")
  if joined = "" then "." else joined

/-! ## YouTube backend (`src/platforms/youtube.ts`)

`Except.error` models a rejected promise; `Except.ok` a resolved one. -/

/-- Outcome of the ytdl media stream (collaborator). -/
inductive StreamOutcome where
  | streamEnd
  | streamError (msg : String)
deriving DecidableEq, Repr

/-- Collaborator outcomes a `YouTubeDownloader.download` call can observe:
the `ytdl.getInfo` result (`Except.error` = thrown, carrying the error
message) and the media stream's outcome. -/
structure YtEnv where
  fetchInfo : Except String VideoInfo
  stream : StreamOutcome

/-- `YouTubeDownloader.mapQuality`.  (The TS `default` arm returning
`'highest'` is unreachable for the closed enum.) -/
def mapQuality : Quality → String
  | .highest => "highestvideo"
  | .lowest => "lowestvideo"
  | .audioOnly => "highestaudio"
  | .hd => "highestvideo"
  | .sd => "480p"

/-- The `ytdlOptions.filter` selection inside `YouTubeDownloader.download`.
It only configures the external stream (whose outcome `YtEnv.stream`
abstracts) and does not influence the result's shape. -/
def ytFilter (format : Format) (quality : Quality)
    (includeAudio includeVideo : Bool) : Option String :=
  if format == Format.mp3 || quality == Quality.audioOnly then some "audioonly"
  else if !includeAudio then some "videoonly"
  else if !includeVideo then some "audioonly"
  else none

/-- `YouTubeDownloader.getInfo`: throws on invalid URL, wraps collaborator
failures in `Failed to get video info: …`. -/
def ytGetInfo (url : String) (env : YtEnv) : Except String VideoInfo :=
  if !isYouTubeURL url then Except.error "Invalid YouTube URL"
  else
    match env.fetchInfo with
    | Except.error e => Except.error ("Failed to get video info: " ++ e)
    | Except.ok info => Except.ok info

/-- `YouTubeDownloader.download`.  Invalid URL and `getInfo` failures return
resolved `success=false` results; `stream.on('end')` resolves a success
result; `stream.on('error')` calls `reject(...)` with a result-shaped object,
so the promise rejects (modelled as `Except.error`). -/
def ytDownload (url : String) (options : DownloadOptions) (env : YtEnv) :
    Except DownloadResult DownloadResult :=
  if !isYouTubeURL url then
    Except.ok { success := false, message := "Invalid YouTube URL",
                error := some "Invalid YouTube URL" }
  else
    match ytGetInfo url env with
    | Except.error e =>
      Except.ok { success := false, message := "Download failed: " ++ e,
                  error := some e }
    | Except.ok videoInfo =>
      let format := options.format.getD Format.mp4
      let fileName := options.fileName.getD (generateFilename videoInfo.title format)
      let outputPath := options.outputPath.getD "./downloads"
      let filePath := pathJoin outputPath fileName
      match env.stream with
      | StreamOutcome.streamEnd =>
        Except.ok { success := true, message := "Download completed successfully",
                    filePath := some filePath, videoInfo := some videoInfo }
      | StreamOutcome.streamError m =>
        Except.error { success := false, message := "Download failed: " ++ m,
                       error := some m }

/-! ## Instagram backend (`src/platforms/instagram.ts`) -/

/-- Collaborator outcome an `InstagramDownloader` call can observe: the
HTTP `get` of the page (`Except.error` = thrown, carrying the error message;
`Except.ok` the HTML body). -/
structure IgEnv where
  pageHtml : Except String String

/-- Title extraction in `InstagramDownloader.getInfo`: first
`/<title>(.*?)<\/title>/` match with `' • Instagram'` removed, defaulting to
`'Instagram Video'`.  The `.` class excludes line terminators, hence the
`isDotChar` check on the candidate. -/
def igTitle (html : String) : String :=
  match html.splitOn "<title>" with
  | _ :: rest@(_ :: _) =>
    let afterOpen := String.intercalate "<title>" rest
    match afterOpen.splitOn "</title>" with
    | candidate :: _ :: _ =>
      if candidate.data.all isDotChar then
        (candidate.replace " • Instagram" "")
      else "Instagram Video"
    | _ => "Instagram Video"
  | _ => "Instagram Video"

/-- Author extraction in `InstagramDownloader.getInfo`: the first
`/instagram\.com\/([a-zA-Z0-9_.]+)/` capture, defaulting to `'Unknown'`. -/
def igAuthor (url : String) : String :=
  let rec find : List Char → String
    | [] => "Unknown"
    | s@(_ :: tl) =>
      match dropLit "instagram.com/".data s with
      | some r =>
        let cap := r.takeWhile isTikTokUserChar
        if cap.isEmpty then find tl else ⟨cap⟩
      | none => find tl
  find url.data

/-- `InstagramDownloader.getInfo`. -/
def igGetInfo (url : String) (env : IgEnv) : Except String VideoInfo :=
  if !isInstagramURL url then Except.error "Invalid Instagram URL"
  else
    match env.pageHtml with
    | Except.error e => Except.error ("Failed to get video info: " ++ e)
    | Except.ok html =>
      Except.ok { title := igTitle html, author := igAuthor url, url := url }

/-- `InstagramDownloader.download`: every path resolves; the implemented
body always returns the placeholder `success=false` result. -/
def igDownload (url : String) (options : DownloadOptions) (env : IgEnv) :
    Except DownloadResult DownloadResult :=
  if !isInstagramURL url then
    Except.ok { success := false, message := "Invalid Instagram URL",
                error := some "Invalid Instagram URL" }
  else
    match igGetInfo url env with
    | Except.error e =>
      Except.ok { success := false, message := "Download failed: " ++ e,
                  error := some e }
    | Except.ok videoInfo =>
      let format := options.format.getD Format.mp4
      let _fileName := options.fileName.getD (generateFilename videoInfo.title format)
      let _outputPath := options.outputPath.getD "./downloads"
      Except.ok { success := false,
                  message := "Instagram downloads require additional dependencies. This is a placeholder implementation.",
                  videoInfo := some videoInfo,
                  error := some "Not fully implemented" }

/-! ## Dispatcher `download` (`VideoDownloader.download`)

The dispatcher resolves the backend through the classifier and delegates.
The three backends whose sources are not part of the claims (TikTok,
Twitter, Facebook) are abstracted as a behavior parameter `bk`; the YouTube
and Instagram behaviors above can instantiate it. -/

/-- Behavior of the per-platform backends, as the dispatcher sees them:
`Except.error` is a rejected `download` promise.  Rejection payloads are
modelled as `DownloadResult` records because the only field any caller reads
off a rejection is `message`, which both a JS `Error` and the YouTube
backend's rejection object carry. -/
def BackendBehavior :=
  Platform → String → DownloadOptions → Except DownloadResult DownloadResult

/-- `VideoDownloader.download`: `Unsupported URL` failure when no platform
matches, otherwise the resolved backend's `download`. -/
def vdDownload (bk : BackendBehavior) (url : String) (options : DownloadOptions) :
    Except DownloadResult DownloadResult :=
  match getDownloaderForUrl url with
  | none =>
    Except.ok { success := false, message := "Unsupported URL",
                error := some "Unsupported URL" }
  | some p => bk p url options

/-! ## Batch runner (`VideoDownloader.batchDownload`)

The `Promise.all` of one chunk is linearized in input order: each member's
completion increments the shared `completed` counter and emits one progress
snapshot, which is exactly the per-completion event structure of the source
(concurrent interleaving only permutes which URL owns which counter value).
-/

/-- `Math.round((completed / total) * 100)` over exact rationals:
`floor(x + 1/2)` for the non-negative `x = 100*completed/total`. -/
def jsRoundPct (completed total : Nat) : Nat :=
  (200 * completed + total) / (2 * total)

/-- The fields of a progress snapshot that `batchDownload` fills
(`hasCurrent` records whether the `current` block was attached, which
happens only on the non-exceptional path). -/
structure BatchProgress where
  percentage : Nat
  completed : Nat
  total : Nat
  hasCurrent : Bool
deriving DecidableEq, Repr

/-- One URL inside a chunk: try the dispatcher download; on resolution keep
its result, on rejection catch and synthesize a failure result; either way
increment `completed` and emit a snapshot. -/
def processOne (dl : String → Except DownloadResult DownloadResult)
    (total completed : Nat) (url : String) : DownloadResult × BatchProgress :=
  match dl url with
  | Except.ok r =>
    (r, ⟨jsRoundPct (completed + 1) total, completed + 1, total, true⟩)
  | Except.error e =>
    ({ success := false, message := "Download failed: " ++ e.message,
       error := some e.message, url := some url },
     ⟨jsRoundPct (completed + 1) total, completed + 1, total, false⟩)

/-- Process the URLs of one chunk in order, threading `completed`. -/
def processChunk (dl : String → Except DownloadResult DownloadResult)
    (total : Nat) :
    List String → Nat → List DownloadResult × List BatchProgress × Nat
  | [], completed => ([], [], completed)
  | u :: us, completed =>
    let (r, p) := processOne dl total completed u
    let (rs, ps, c) := processChunk dl total us (completed + 1)
    (r :: rs, p :: ps, c)

/-- Process the chunks in order (chunks are strictly sequential in the
source: each `Promise.all` is awaited before the next slice). -/
def processChunks (dl : String → Except DownloadResult DownloadResult)
    (total : Nat) :
    List (List String) → Nat → List DownloadResult × List BatchProgress × Nat
  | [], completed => ([], [], completed)
  | ch :: chs, completed =>
    let (rs, ps, c) := processChunk dl total ch completed
    let (rs2, ps2, c2) := processChunks dl total chs c
    (rs ++ rs2, ps ++ ps2, c2)

/-- `supportedUrls.slice(i, i + concurrency)` chunking.  The fuel argument
(instantiated with the list length) only bounds the recursion; with
`n ≥ 1` the guard case is unreachable.  A `concurrency` of `0` makes the
source's `for` loop diverge, so `chunksOf` is only meaningful for `n ≥ 1`. -/
def chunksOfAux (n : Nat) : List String → Nat → List (List String)
  | [], _ => []
  | l, 0 => [l]
  | l@(_ :: _), fuel + 1 => l.take n :: chunksOfAux n (l.drop n) fuel

/-- Partition into consecutive chunks of size `n` (`n ≥ 1`). -/
def chunksOf (n : Nat) (l : List String) : List (List String) :=
  chunksOfAux n l l.length

/-- `VideoDownloader.batchDownload`: filter to supported URLs, return `[]`
when none remain, otherwise process chunk by chunk.  Returns the result list
and the sequence of snapshots handed to `onProgress`. -/
def batchDownload (urls : List String) (concurrency : Nat)
    (dl : String → Except DownloadResult DownloadResult) :
    List DownloadResult × List BatchProgress :=
  let supportedUrls := urls.filter isSupported
  if supportedUrls.length = 0 then ([], [])
  else
    let (rs, ps, _) := processChunks dl supportedUrls.length
      (chunksOf concurrency supportedUrls) 0
    (rs, ps)

/-! ## Scheduler (`VideoDownloader.scheduleDownload`)

JS `Date`s are modelled as normalized civil date-times (year, 0-based month,
1-based day, milliseconds within the day); chronological comparison is then
lexicographic.  The mutating `Date` operations the scheduler uses
(`setDate(getDate()+n)`, `setMonth(getMonth()+1)`, `setDate(dayOfMonth)`,
`getDay()`) are modelled with proleptic-Gregorian calendar arithmetic,
ignoring time-zone/DST irregularities of local-time `Date`s. -/

/-- A civil date-time: `month` is 0-based (as in JS), `day` 1-based, `ms`
the milliseconds elapsed within the day. -/
structure CDate where
  year : Int
  month : Nat
  day : Nat
  ms : Nat
deriving DecidableEq, Repr

/-- Chronological strict order (`getTime() < getTime()` on normalized
dates). -/
def cLt (a b : CDate) : Bool :=
  if a.year ≠ b.year then decide (a.year < b.year)
  else if a.month ≠ b.month then decide (a.month < b.month)
  else if a.day ≠ b.day then decide (a.day < b.day)
  else decide (a.ms < b.ms)

/-- Gregorian leap year. -/
def isLeapYear (y : Int) : Bool :=
  (y % 4 == 0 && y % 100 != 0) || y % 400 == 0

/-- Days in the (0-based) month `m` of year `y`. -/
def daysInMonth (y : Int) (m : Nat) : Nat :=
  match m with
  | 0 => 31
  | 1 => if isLeapYear y then 29 else 28
  | 2 => 31
  | 3 => 30
  | 4 => 31
  | 5 => 30
  | 6 => 31
  | 7 => 31
  | 8 => 30
  | 9 => 31
  | 10 => 30
  | _ => 31

/-- The next calendar day. -/
def nextDay (d : CDate) : CDate :=
  if d.day + 1 > daysInMonth d.year d.month then
    if d.month = 11 then ⟨d.year + 1, 0, 1, d.ms⟩
    else ⟨d.year, d.month + 1, 1, d.ms⟩
  else ⟨d.year, d.month, d.day + 1, d.ms⟩

/-- `setDate(getDate() + n)` for `n ≥ 0`, preserving the time of day. -/
def addDays : Nat → CDate → CDate
  | 0, d => d
  | n + 1, d => addDays n (nextDay d)

/-- `setMonth(getMonth() + 1)` with JS's day-overflow normalization: the day
is kept and, if it exceeds the target month's length (by at most 3), rolls
into the following month. -/
def addMonthKeepDay (d : CDate) : CDate :=
  let y := if d.month = 11 then d.year + 1 else d.year
  let m := if d.month = 11 then 0 else d.month + 1
  let dim := daysInMonth y m
  if d.day > dim then
    if m = 11 then ⟨y + 1, 0, d.day - dim, d.ms⟩
    else ⟨y, m + 1, d.day - dim, d.ms⟩
  else ⟨y, m, d.day, d.ms⟩

/-- `setDate(k)` for `1 ≤ k ≤ 31`, with JS's overflow normalization (a `k`
beyond the month's length rolls into the following month, the excess being
at most 3 days). -/
def setDayOfMonth (k : Nat) (d : CDate) : CDate :=
  let dim := daysInMonth d.year d.month
  if k > dim then
    if d.month = 11 then ⟨d.year + 1, 0, k - dim, d.ms⟩
    else ⟨d.year, d.month + 1, k - dim, d.ms⟩
  else ⟨d.year, d.month, k, d.ms⟩

/-- `Date.prototype.getDay` (0 = Sunday), by Sakamoto's method; valid for CE
dates, which is the range the scheduler is exercised on. -/
def weekdayOf (d : CDate) : Nat :=
  let m := d.month + 1
  let y : Int := if m < 3 then d.year - 1 else d.year
  let t := [0, 3, 2, 5, 0, 3, 5, 1, 4, 6, 2, 4]
  ((y + y / 4 - y / 100 + y / 400 + t.getD (m - 1) 0 + (d.day : Int)).toNat) % 7

/-- The recurrence rule union type `'once' | 'daily' | 'weekly' | 'monthly'`. -/
inductive RepeatRule where
  | once | daily | weekly | monthly
deriving DecidableEq, Repr

/-- The `schedule` field of `ScheduledDownloadOptions`. -/
structure Schedule where
  date : CDate
  repeatRule : Option RepeatRule := none
  days : Option (List String) := none
  dayOfMonth : Option Int := none
  endDate : Option CDate := none
deriving DecidableEq, Repr

/-- The `daysOfWeek` lookup table of the weekly case. -/
def daysOfWeek : List String :=
  ["sunday", "monday", "tuesday", "wednesday", "thursday", "friday", "saturday"]

/-- `Array.prototype.indexOf` (`-1` when absent). -/
def jsIndexOfAux (x : String) : List String → Int → Int
  | [], _ => -1
  | y :: ys, i => if y == x then i else jsIndexOfAux x ys (i + 1)

/-- `daysOfWeek.indexOf(day)`. -/
def jsIndexOf (l : List String) (x : String) : Int := jsIndexOfAux x l 0

/-- The weekly `while` loop: starting at `daysToAdd = d`, return the first
`daysToAdd` whose weekday `(cur + daysToAdd) % 7` is scheduled; the loop
breaks once `daysToAdd` exceeds 7, returning 8.  The fuel (always run with
8) bounds the recursion; the loop's own `daysToAdd > 7` break fires first,
so the fuel-exhaustion case is unreachable. -/
def weeklyScanFrom (sched : List Int) (cur : Nat) : Nat → Nat → Nat
  | d, 0 => d
  | d, fuel + 1 =>
    if sched.contains (((cur + d) % 7 : Nat) : Int) then d
    else if d + 1 > 7 then d + 1
    else weeklyScanFrom sched cur (d + 1) fuel

/-- Days to add in the weekly case with an explicit weekday set: scan
forward from the current weekday index, starting at 1 day ahead. -/
def weeklyDaysToAdd (scheduledDayIndices : List Int) (currentDayIndex : Nat) : Nat :=
  weeklyScanFrom scheduledDayIndices currentDayIndex 1 8

/-- The weekly case's day offset: explicit weekday names are mapped through
`indexOf` and scanned; with no (or an empty) weekday list the default is 7
days. -/
def weeklyDelta (days : Option (List String)) (currentDayIndex : Nat) : Nat :=
  match days with
  | some ds =>
    if ds.length > 0 then
      weeklyDaysToAdd (ds.map (jsIndexOf daysOfWeek)) currentDayIndex
    else 7
  | none => 7

/-- The `switch (schedule.repeat)` of `scheduleNextRun`: the computed
`nextDate` from the previous occurrence `nextRun`, or `none` when the rule
is absent/`'once'` (the `default:` arm returns without scheduling).  The
monthly guard `schedule.dayOfMonth && dayOfMonth >= 1 && dayOfMonth <= 31`
is falsy for `0` and fails the range check for everything else it rejects. -/
def computeNextDate (sched : Schedule) (now : CDate) (nextRun : CDate) :
    Option CDate :=
  match sched.repeatRule with
  | some RepeatRule.daily => some (addDays 1 nextRun)
  | some RepeatRule.weekly =>
    some (addDays (weeklyDelta sched.days (weekdayOf now)) nextRun)
  | some RepeatRule.monthly =>
    match sched.dayOfMonth with
    | some k =>
      if 1 ≤ k ∧ k ≤ 31 then some (setDayOfMonth k.toNat (addMonthKeepDay nextRun))
      else some (addMonthKeepDay nextRun)
    | none => some (addMonthKeepDay nextRun)
  | some RepeatRule.once => none
  | none => none

/-- `nextDate > schedule.endDate` (no end date configured means the check
never fires). -/
def pastEnd (sched : Schedule) (nextDate : CDate) : Bool :=
  match sched.endDate with
  | some e => cLt e nextDate
  | none => false

/-- `schedule.repeat && schedule.repeat !== 'once'`. -/
def isRepeating (sched : Schedule) : Bool :=
  match sched.repeatRule with
  | some RepeatRule.once => false
  | some _ => true
  | none => false

/-- The mutable closure state of one `scheduleDownload` call, together with
the set of pending `setTimeout` timers.  `timeoutId` is the id the closure
variable currently references; `armed` lists every pending timer (a fired or
cleared timer leaves it); `fresh` generates timer ids; `invocations` counts
how many times `executeDownload` actually invoked the dispatcher download. -/
structure SchedState where
  armed : List Nat
  timeoutId : Nat
  fresh : Nat
  isPaused : Bool
  nextRun : CDate
  invocations : Nat
deriving DecidableEq, Repr

/-- `timeoutId = setTimeout(executeDownload, delay)`: arm a fresh timer and
store its id, recording `nextRun = nd`. -/
def armTimer (nd : CDate) (s : SchedState) : SchedState :=
  { s with nextRun := nd, armed := s.fresh :: s.armed,
           timeoutId := s.fresh, fresh := s.fresh + 1 }

/-- `const result = await this.download(...)`: the state effect of one
dispatcher-download invocation (callbacks are notification-only). -/
def invokeDownload (s : SchedState) : SchedState :=
  { s with invocations := s.invocations + 1 }

/-- `scheduleNextRun`: bail out when paused; compute the next date per the
rule (returning on the `default` arm); stop if past the end date; otherwise
update `nextRun` and arm a timer for it. -/
def scheduleNextRun (sched : Schedule) (now : CDate) (s : SchedState) : SchedState :=
  if s.isPaused then s
  else
    match computeNextDate sched now s.nextRun with
    | none => s
    | some nd => if pastEnd sched nd then s else armTimer nd s

/-- `executeDownload`: no-op when paused; otherwise invoke the dispatcher
download and — in the `try` branch on completion, in the `catch` branch on
failure (`downloadFails`) alike — reschedule when the rule is a repeating
one. -/
def executeDownload (downloadFails : Bool) (sched : Schedule) (now : CDate)
    (s : SchedState) : SchedState :=
  if s.isPaused then s
  else if downloadFails then
    let s1 := invokeDownload s
    if isRepeating sched then scheduleNextRun sched now s1 else s1
  else
    let s1 := invokeDownload s
    if isRepeating sched then scheduleNextRun sched now s1 else s1

/-- A pending timer elapsing at time `now`: it leaves the pending set and
runs `executeDownload`.  Timers that were cleared (no longer in `armed`)
never fire. -/
def fireTimer (tid : Nat) (downloadFails : Bool) (sched : Schedule)
    (now : CDate) (s : SchedState) : SchedState :=
  if s.armed.contains tid then
    executeDownload downloadFails sched now { s with armed := s.armed.erase tid }
  else s

/-- The control object's `cancel: () => clearTimeout(timeoutId)`: removes
the timer currently referenced by `timeoutId` from the pending set (and
nothing else — the paused flag and any other pending timer are untouched). -/
def SchedState.cancel (s : SchedState) : SchedState :=
  { s with armed := s.armed.erase s.timeoutId }

/-- The control object's `pause`: only sets the flag; the pending timer is
not cleared. -/
def SchedState.pause (s : SchedState) : SchedState :=
  { s with isPaused := true }

/-- The control object's `resume`: clear the flag; if `nextRun` is already
past, run immediately, otherwise arm a fresh timer for `nextRun`. -/
def SchedState.resume (downloadFails : Bool) (sched : Schedule) (now : CDate)
    (s : SchedState) : SchedState :=
  let s1 := { s with isPaused := false }
  if cLt s1.nextRun now then executeDownload downloadFails sched now s1
  else armTimer s1.nextRun s1

/-- `VideoDownloader.scheduleDownload` (creation): throws
`'Scheduled date is in the past'` when `initialDelay < 0` and the rule is
`'once'`; otherwise arms the initial timer (id 0) for
`max(0, initialDelay)` with `nextRun = schedule.date`. -/
def scheduleDownload (sched : Schedule) (now : CDate) : Except String SchedState :=
  if cLt sched.date now && sched.repeatRule == some RepeatRule.once then
    Except.error "Scheduled date is in the past"
  else
    Except.ok { armed := [0], timeoutId := 0, fresh := 1, isPaused := false,
                nextRun := sched.date, invocations := 0 }

/-- `true` on a rejected promise / thrown creation. -/
def exceptIsErr : Except ε α → Bool
  | Except.error _ => true
  | Except.ok _ => false

/-- The `DownloadResult` a settled backend promise carries, whether resolved
or rejected. -/
def exceptPayload : Except DownloadResult DownloadResult → DownloadResult
  | Except.ok r => r
  | Except.error r => r

/-- Whether the stream collaborator errored. -/
def isStreamError : StreamOutcome → Bool
  | StreamOutcome.streamError _ => true
  | StreamOutcome.streamEnd => false

/-- The result-shape invariant: a successful result carries a non-empty
`filePath`; a failed one a non-empty `message`. -/
def resInvariant (r : DownloadResult) : Bool :=
  if r.success then r.filePath.getD "" != "" else r.message != ""

/-- `resInvariant` of a settled promise's payload (resolved or rejected). -/
def payloadInv (x : Except DownloadResult DownloadResult) : Bool :=
  resInvariant (exceptPayload x)

/-! ## Concrete instances used by the closed theorems below -/

/-- A one-shot schedule for 2024-01-02T00:00. -/
def cSchedOnce : Schedule :=
  { date := ⟨2024, 0, 2, 0⟩, repeatRule := some RepeatRule.once }

/-- A daily schedule for 2024-01-02T00:00. -/
def cDailySched : Schedule :=
  { date := ⟨2024, 0, 2, 0⟩, repeatRule := some RepeatRule.daily }

/-- A weekly monday/wednesday schedule. -/
def cWeeklySched : Schedule :=
  { date := ⟨2024, 0, 2, 0⟩, repeatRule := some RepeatRule.weekly,
    days := some ["monday", "wednesday"] }

/-- 2024-01-01T00:00 (a Monday), used as creation time. -/
def cNow0 : CDate := ⟨2024, 0, 1, 0⟩

/-- 2024-01-02T00:00 (a Tuesday), the schedules' target time. -/
def cDate1 : CDate := ⟨2024, 0, 2, 0⟩

/-- 2024-01-04T00:00 (a Thursday). -/
def cThursday : CDate := ⟨2024, 0, 4, 0⟩

/-- The closure state `scheduleDownload` arms at creation for `cSchedOnce`
from `cNow0`: the initial timer (id 0) pending, not paused. -/
def cState0 : SchedState :=
  { armed := [0], timeoutId := 0, fresh := 1, isPaused := false,
    nextRun := ⟨2024, 0, 2, 0⟩, invocations := 0 }

/-- Eight supported YouTube URLs (each matches `YOUTUBE_PATTERNS[0]`). -/
def cUrls8 : List String :=
  ["youtube.com/1", "youtube.com/2", "youtube.com/3", "youtube.com/4",
   "youtube.com/5", "youtube.com/6", "youtube.com/7", "youtube.com/8"]

/-- Two URLs of which one is supported. -/
def cUrls2 : List String := ["youtube.com/a", "nope"]

/-- A failure result satisfying the result-shape invariant. -/
def cOkResult : DownloadResult := { success := false, message := "stub failure" }

/-- A dispatcher behavior that always resolves with `cOkResult`. -/
def cDlOk : String → Except DownloadResult DownloadResult :=
  fun _ => Except.ok cOkResult

/-- A backend behavior that always resolves with `cOkResult`. -/
def cStubBackend : BackendBehavior := fun _ _ _ => Except.ok cOkResult

/-- A valid YouTube URL. -/
def cYtUrl : String := "https://youtu.be/dQw4w9WgXcQ"

/-- A run in which metadata fetching succeeds and the media stream then
errors mid-transfer. -/
def cYtErrEnv : YtEnv :=
  { fetchInfo := Except.ok { title := "T" }, stream := StreamOutcome.streamError "boom" }

/-- The value `YouTubeDownloader.download`'s promise is rejected with in the
`cYtErrEnv` run. -/
def cRejected : DownloadResult :=
  { success := false, message := "Download failed: boom", error := some "boom" }

/-! ## Helper lemmas -/

/-- Appending to a non-empty string stays non-empty. -/
theorem append_left_ne_empty (s t : String) (h : 0 < s.length) : s ++ t ≠ "" := by
  intro he
  have hl := congrArg String.length he
  rw [String.length_append] at hl
  rw [show ("" : String).length = 0 from rfl] at hl
  omega

/-- `pathJoin` never returns the empty string. -/
theorem pathJoin_ne_empty (a b : String) : pathJoin a b ≠ "" := by
  by_cases hj : "/".intercalate (List.filter (fun x => x != "") [a, b]) = ""
  · simp [pathJoin, hj]
  · simp [pathJoin, hj]

/-! ## C4 — `isSupported` agrees with the classifier -/

/-- C4: for every URL string, the dispatcher's `isSupported url` is `true`
exactly when the classifier `getDownloaderForUrl` resolves some platform,
classification being the ordered disjunction of the five per-platform
pattern checks. -/
theorem c4_isSupported_iff_classified (url : String) :
    isSupported url = (getDownloaderForUrl url).isSome := by
  cases h1 : isYouTubeURL url <;> cases h2 : isTikTokURL url <;>
    cases h3 : isInstagramURL url <;> cases h4 : isTwitterURL url <;>
    cases h5 : isFacebookURL url <;>
    simp [isSupported, isSupportedURL, getDownloaderForUrl, h1, h2, h3, h4, h5]

/-! ## C5 — filename generation example -/

/-- C5: the title `"My Video: Part 1?"` with format MP4 generates the
filename `"My_Video-_Part_1-.mp4"`: invalid characters become `-`,
whitespace runs become `_`, and the lowercased format is the extension. -/
theorem c5_generateFilename_example :
    generateFilename "My Video: Part 1?" Format.mp4 = "My_Video-_Part_1-.mp4" := by
  decide

/-! ## C6 — schedule creation failure condition -/

/-- C6: schedule creation throws (`InvalidSchedule`) exactly when the
recurrence rule is `'once'` and the target date is strictly before the
creation time; a repeating schedule with a past date, or a one-shot
schedule with a present/future date, is created successfully. -/
theorem c6_invalidSchedule_iff (sched : Schedule) (now : CDate) :
    exceptIsErr (scheduleDownload sched now) =
      (sched.repeatRule == some RepeatRule.once && cLt sched.date now) := by
  unfold scheduleDownload exceptIsErr
  cases hC : cLt sched.date now <;>
    cases hR : sched.repeatRule == some RepeatRule.once <;>
    simp [hC, hR]

/-! ## C7 — weekly next-occurrence computation -/

/-- C7: the weekly recurrence with `days = ['monday','wednesday']` computes
an offset of 1 day when the current day is Tuesday (index 2) and 4 days
when it is Thursday (index 4); with no weekday set the offset is exactly
7 days; and `computeNextDate` adds exactly that offset to the previous
occurrence (`cDate1` is a Tuesday). -/
theorem c7_weekly_scan :
    weeklyDelta (some ["monday", "wednesday"]) 2 = 1 ∧
    weeklyDelta (some ["monday", "wednesday"]) 4 = 4 ∧
    (∀ cur : Nat, weeklyDelta none cur = 7) ∧
    (∀ nextRun : CDate,
      computeNextDate cWeeklySched cDate1 nextRun = some (addDays 1 nextRun)) := by
  refine ⟨by decide, by decide, fun cur => rfl, fun nextRun => rfl⟩

/-! ## C1 — backend `download` and promise rejection -/

/-- C1 counterexample: on a valid YouTube URL whose media stream errors
mid-transfer, `YouTubeDownloader.download`'s promise is rejected (with a
result-shaped value), so the backend `download` does not encode every
failure path in a resolved result. -/
theorem c1_counterexample :
    exceptIsErr (ytDownload cYtUrl {} cYtErrEnv) = true ∧
    ytDownload cYtUrl {} cYtErrEnv = Except.error cRejected := by
  decide

/-- C1 (amended): the YouTube backend's `download` rejects exactly when the
URL is valid, metadata fetching succeeded and the stream then errored — all
other failure paths resolve with a `success=false` result; the rejection
value itself is a `success=false` result-shaped object with a non-empty
message; and the Instagram backend's `download` never rejects. -/
theorem c1_amended :
    (∀ (url : String) (opts : DownloadOptions) (env : YtEnv),
      exceptIsErr (ytDownload url opts env) =
        (isYouTubeURL url && !(exceptIsErr env.fetchInfo) && isStreamError env.stream)) ∧
    (∀ (url : String) (opts : DownloadOptions) (env : YtEnv),
      exceptIsErr (ytDownload url opts env) = true →
        (exceptPayload (ytDownload url opts env)).success = false ∧
        (exceptPayload (ytDownload url opts env)).message ≠ "") ∧
    (∀ (url : String) (opts : DownloadOptions) (env : IgEnv),
      exceptIsErr (igDownload url opts env) = false) := by
  refine ⟨?_, ?_, ?_⟩
  · intro url opts env
    cases h1 : isYouTubeURL url <;> cases h2 : env.fetchInfo <;>
      cases h3 : env.stream <;>
      simp [ytDownload, ytGetInfo, h1, h2, h3, exceptIsErr, isStreamError]
  · intro url opts env h
    cases h1 : isYouTubeURL url <;> cases h2 : env.fetchInfo <;>
      cases h3 : env.stream <;>
      simp_all [ytDownload, ytGetInfo, exceptIsErr, exceptPayload]
    exact append_left_ne_empty _ _ (by decide)
  · intro url opts env
    cases h1 : isInstagramURL url <;> cases h2 : env.pageHtml <;>
      simp [igDownload, igGetInfo, h1, h2, exceptIsErr]

/-- Witness for the amended C1: the rejection value of the concrete
mid-stream-error run is a `success=false` result with a message. -/
theorem c1_amended_witness :
    (exceptPayload (ytDownload cYtUrl {} cYtErrEnv)).success = false ∧
    (exceptPayload (ytDownload cYtUrl {} cYtErrEnv)).message ≠ "" :=
  c1_amended.2.1 cYtUrl {} cYtErrEnv (by decide)

/-! ## C3 — `cancel()` is not irreversible -/

/-- C3 counterexample: from a freshly created one-shot schedule, calling
`cancel()` and then `resume()` re-arms a timer, and when that timer fires
the download executes — so a sequence of control-surface calls after
`cancel()` does make the scheduled download run. -/
theorem c3_counterexample :
    scheduleDownload cSchedOnce cNow0 = Except.ok cState0 ∧
    (fireTimer 1 false cSchedOnce cDate1
      (SchedState.resume false cSchedOnce cNow0 (SchedState.cancel cState0))).invocations = 1 := by
  decide

/-- C3 (amended): `cancel()` unconditionally removes the timer currently
referenced by the stored timer id and is idempotent, but it is not
irreversible: a subsequent `resume()` re-arms a timer and the download can
still execute (shown on the concrete trace). -/
theorem c3_amended :
    (∀ s : SchedState, s.armed.Nodup →
      SchedState.cancel (SchedState.cancel s) = SchedState.cancel s ∧
      s.timeoutId ∉ (SchedState.cancel s).armed) ∧
    (fireTimer 1 false cSchedOnce cDate1
      (SchedState.resume false cSchedOnce cNow0 (SchedState.cancel cState0))).invocations = 1 := by
  constructor
  · intro s h
    have hnm : s.timeoutId ∉ s.armed.erase s.timeoutId := by
      intro hm
      exact absurd (h.mem_erase_iff.mp hm).1 (by simp)
    constructor
    · unfold SchedState.cancel
      simp [List.erase_of_not_mem hnm]
    · exact hnm
  · decide

/-- Witness for the amended C3 at the concrete initial state. -/
theorem c3_amended_witness :
    SchedState.cancel (SchedState.cancel cState0) = SchedState.cancel cState0 ∧
    cState0.timeoutId ∉ (SchedState.cancel cState0).armed :=
  c3_amended.1 cState0 (by decide)

/-! ## C10 — pause/resume double-arms the timer -/

/-- C10: pausing and then resuming before the pending timer has fired
(next-run still in the future) leaves two timers armed for the same
occurrence — the never-cleared original and the fresh one armed by
`resume()` — and when both fire the download executes twice. -/
theorem c10_double_timer :
    (SchedState.resume false cSchedOnce cNow0 (SchedState.pause cState0)).armed = [1, 0] ∧
    (fireTimer 0 false cSchedOnce cDate1
      (fireTimer 1 false cSchedOnce cDate1
        (SchedState.resume false cSchedOnce cNow0 (SchedState.pause cState0)))).invocations = 2 := by
  decide

/-! ## C8 — a download failure never stops a repeating schedule -/

/-- C8: for a non-paused schedule with a repeating rule, the state after a
timer execution is the same whether the invoked download failed or
completed, and in both cases the next occurrence is computed and armed,
subject only to the end-date check. -/
theorem c8_reschedule_on_failure (sched : Schedule) (now : CDate)
    (s : SchedState) (downloadFails : Bool) (r : RepeatRule)
    (hp : s.isPaused = false) (hr : sched.repeatRule = some r)
    (hro : r ≠ RepeatRule.once) :
    executeDownload downloadFails sched now s = executeDownload false sched now s ∧
    ∃ nd, computeNextDate sched now s.nextRun = some nd ∧
      executeDownload downloadFails sched now s =
        (if pastEnd sched nd then invokeDownload s
         else armTimer nd (invokeDownload s)) := by
  have hrep : isRepeating sched = true := by
    cases r with
    | once => exact absurd rfl hro
    | daily => simp [isRepeating, hr]
    | weekly => simp [isRepeating, hr]
    | monthly => simp [isRepeating, hr]
  have hnd : ∃ nd, computeNextDate sched now s.nextRun = some nd := by
    cases r with
    | once => exact absurd rfl hro
    | daily => exact ⟨addDays 1 s.nextRun, by simp [computeNextDate, hr]⟩
    | weekly =>
      exact ⟨addDays (weeklyDelta sched.days (weekdayOf now)) s.nextRun,
        by simp [computeNextDate, hr]⟩
    | monthly =>
      unfold computeNextDate
      rw [hr]
      cases sched.dayOfMonth with
      | none => exact ⟨_, rfl⟩
      | some k =>
        dsimp only
        split
        · exact ⟨_, rfl⟩
        · exact ⟨_, rfl⟩
  obtain ⟨nd, hnd⟩ := hnd
  constructor
  · cases downloadFails <;> rfl
  · refine ⟨nd, hnd, ?_⟩
    cases downloadFails <;>
      (simp [executeDownload, hp, hrep, scheduleNextRun, invokeDownload]; rw [hnd])

/-- Witness for C8 at a concrete daily schedule and the concrete initial
state, with a failing download. -/
theorem c8_reschedule_on_failure_witness :
    executeDownload true cDailySched cNow0 cState0 =
      executeDownload false cDailySched cNow0 cState0 ∧
    ∃ nd, computeNextDate cDailySched cNow0 cState0.nextRun = some nd ∧
      executeDownload true cDailySched cNow0 cState0 =
        (if pastEnd cDailySched nd then invokeDownload cState0
         else armTimer nd (invokeDownload cState0)) :=
  c8_reschedule_on_failure cDailySched cNow0 cState0 true RepeatRule.daily
    rfl rfl (by decide)

/-! ## Batch-runner lemmas -/

/-- Splitting a `range'` of naturals. -/
theorem range'_split (s m n : Nat) :
    List.range' s (m + n) = List.range' s m ++ List.range' (s + m) n := by
  induction m generalizing s with
  | zero => simp
  | succ m ih =>
    have h1 : m + 1 + n = (m + n) + 1 := by omega
    rw [h1, List.range'_succ, List.range'_succ, ih (s + 1),
      show s + 1 + m = s + (m + 1) from by omega]
    simp [List.cons_append]

/-- The snapshots a chunk emits: one per URL, with `completed` counting up
from the incoming counter and `percentage` the JS rounding of
`completed/total`; the counter advances by the chunk's length. -/
theorem processChunk_progress (dl : String → Except DownloadResult DownloadResult)
    (total : Nat) (ch : List String) :
    ∀ c : Nat,
      (processChunk dl total ch c).2.1.map
          (fun p => (p.completed, p.percentage, p.total)) =
        (List.range' (c + 1) ch.length).map
          (fun k => (k, jsRoundPct k total, total)) ∧
      (processChunk dl total ch c).2.2 = c + ch.length := by
  induction ch with
  | nil => intro c; simp [processChunk]
  | cons u us ih =>
    intro c
    rcases hrec : processChunk dl total us (c + 1) with ⟨rs, ps, c2⟩
    have hmap : ps.map (fun p => (p.completed, p.percentage, p.total)) =
        (List.range' (c + 1 + 1) us.length).map
          (fun k => (k, jsRoundPct k total, total)) := by
      simpa [hrec] using (ih (c + 1)).1
    have hcnt : c2 = c + 1 + us.length := by
      simpa [hrec] using (ih (c + 1)).2
    cases hd : dl u <;>
      (simp [processChunk, processOne, hd, hrec, hmap, List.range'_succ]
       omega)

/-- The snapshots of a chunk sequence, by composing `processChunk_progress`. -/
theorem processChunks_progress (dl : String → Except DownloadResult DownloadResult)
    (total : Nat) (chs : List (List String)) :
    ∀ c : Nat,
      (processChunks dl total chs c).2.1.map
          (fun p => (p.completed, p.percentage, p.total)) =
        (List.range' (c + 1) ((chs.map List.length).sum)).map
          (fun k => (k, jsRoundPct k total, total)) ∧
      (processChunks dl total chs c).2.2 = c + (chs.map List.length).sum := by
  induction chs with
  | nil => intro c; simp [processChunks]
  | cons ch chs ih =>
    intro c
    rcases h1 : processChunk dl total ch c with ⟨rs, ps, c1⟩
    have hc1 : ps.map (fun p => (p.completed, p.percentage, p.total)) =
        (List.range' (c + 1) ch.length).map
          (fun k => (k, jsRoundPct k total, total)) := by
      simpa [h1] using (processChunk_progress dl total ch c).1
    have hc2 : c1 = c + ch.length := by
      simpa [h1] using (processChunk_progress dl total ch c).2
    rcases h2 : processChunks dl total chs c1 with ⟨rs2, ps2, c2⟩
    have hd1 : ps2.map (fun p => (p.completed, p.percentage, p.total)) =
        (List.range' (c1 + 1) ((chs.map List.length).sum)).map
          (fun k => (k, jsRoundPct k total, total)) := by
      simpa [h2] using (ih c1).1
    have hd2 : c2 = c1 + (chs.map List.length).sum := by
      simpa [h2] using (ih c1).2
    simp only [processChunks, h1, h2, List.map_cons, List.map_append, List.sum_cons]
    refine ⟨?_, by omega⟩
    rw [hc1, hd1, hc2, range'_split,
      show c + ch.length + 1 = c + 1 + ch.length from by omega, List.map_append]

/-- With positive chunk size, chunking partitions the list. -/
theorem chunksOfAux_flatten (n : Nat) (hn : 0 < n) :
    ∀ (fuel : Nat) (l : List String), l.length ≤ fuel →
      (chunksOfAux n l fuel).flatten = l := by
  intro fuel
  induction fuel with
  | zero =>
    intro l hl
    have : l = [] := List.eq_nil_of_length_eq_zero (Nat.le_zero.mp hl)
    subst this
    rfl
  | succ fuel ih =>
    intro l hl
    cases l with
    | nil => rfl
    | cons a as =>
      have hd : (List.drop n (a :: as)).length ≤ fuel := by
        rw [List.length_drop]
        simp only [List.length_cons]
        simp only [List.length_cons] at hl
        omega
      simp only [chunksOfAux, List.flatten_cons]
      rw [ih _ hd, List.take_append_drop]

/-- `chunksOf` partitions the list (for positive chunk size). -/
theorem chunksOf_flatten (n : Nat) (hn : 0 < n) (l : List String) :
    (chunksOf n l).flatten = l :=
  chunksOfAux_flatten n hn l.length l (le_refl _)

/-- The chunk lengths of `chunksOf` sum to the list's length. -/
theorem chunksOf_length_sum (n : Nat) (hn : 0 < n) (l : List String) :
    ((chunksOf n l).map List.length).sum = l.length := by
  rw [← List.length_flatten, chunksOf_flatten n hn]

/-- Unfolding `batchDownload` on a non-empty supported set. -/
theorem batchDownload_eq (urls : List String) (concurrency : Nat)
    (dl : String → Except DownloadResult DownloadResult)
    (h : (urls.filter isSupported).length ≠ 0) :
    batchDownload urls concurrency dl =
      ((processChunks dl (urls.filter isSupported).length
          (chunksOf concurrency (urls.filter isSupported)) 0).1,
       (processChunks dl (urls.filter isSupported).length
          (chunksOf concurrency (urls.filter isSupported)) 0).2.1) := by
  unfold batchDownload
  rcases hp : processChunks dl (urls.filter isSupported).length
      (chunksOf concurrency (urls.filter isSupported)) 0 with ⟨rs, ps, c⟩
  simp [h, hp]

/-! ## C2 — batch progress percentages -/

/-- C2 counterexample: with eight supported URLs, the snapshot emitted after
the first completed download reports percentage 13 = round(100·1/8), while
floor(100·1/8) = 12, so the emitted percentage is not the floor. -/
theorem c2_counterexample :
    ((batchDownload cUrls8 3 cDlOk).2.map BatchProgress.percentage).head? = some 13 ∧
    100 * 1 / 8 = 12 := by
  decide

/-- C2 (amended): with positive concurrency, `batchDownload` emits exactly
one progress snapshot per supported URL; the k-th (1-based) snapshot carries
`completed = k`, `total` = the number of supported URLs, and
`percentage = round(completed/total·100)` (JS `Math.round`, i.e. half-up —
not floor). -/
theorem c2_amended (urls : List String) (concurrency : Nat)
    (dl : String → Except DownloadResult DownloadResult)
    (hc : 0 < concurrency) :
    (batchDownload urls concurrency dl).2.map
        (fun p => (p.completed, p.percentage, p.total)) =
      (List.range' 1 (urls.filter isSupported).length).map
        (fun k => (k, jsRoundPct k (urls.filter isSupported).length,
                   (urls.filter isSupported).length)) := by
  by_cases h0 : (urls.filter isSupported).length = 0
  · simp [batchDownload, h0]
  · rw [batchDownload_eq urls concurrency dl h0]
    have h := (processChunks_progress dl (urls.filter isSupported).length
      (chunksOf concurrency (urls.filter isSupported)) 0).1
    rw [chunksOf_length_sum concurrency hc] at h
    simpa using h

/-- Witness for the amended C2 on a concrete batch with one supported URL. -/
theorem c2_amended_witness :
    (batchDownload cUrls2 3 cDlOk).2.map
        (fun p => (p.completed, p.percentage, p.total)) =
      (List.range' 1 (cUrls2.filter isSupported).length).map
        (fun k => (k, jsRoundPct k (cUrls2.filter isSupported).length,
                   (cUrls2.filter isSupported).length)) :=
  c2_amended cUrls2 3 cDlOk (by decide)

/-! ## C9 — result-shape invariant -/

/-- Every result a chunk collects satisfies the invariant, provided every
settled dispatcher promise's payload does (the catch-branch result is
checked outright). -/
theorem processChunk_mem_invariant (dl : String → Except DownloadResult DownloadResult)
    (total : Nat) (hdl : ∀ u, payloadInv (dl u) = true) :
    ∀ (ch : List String) (c : Nat) (r : DownloadResult),
      r ∈ (processChunk dl total ch c).1 → resInvariant r = true := by
  intro ch
  induction ch with
  | nil => intro c r hr; simp [processChunk] at hr
  | cons u us ih =>
    intro c r hr
    rcases hrec : processChunk dl total us (c + 1) with ⟨rs, ps, c2⟩
    cases hd : dl u with
    | ok r0 =>
      simp [processChunk, processOne, hd, hrec] at hr
      rcases hr with h | h
      · have := hdl u
        rw [hd] at this
        simpa [payloadInv, exceptPayload, h] using this
      · have := ih (c + 1) r
        rw [hrec] at this
        exact this h
    | error e =>
      simp [processChunk, processOne, hd, hrec] at hr
      rcases hr with h | h
      · subst h
        simp [resInvariant, bne_iff_ne]
        exact append_left_ne_empty _ _ (by decide)
      · have := ih (c + 1) r
        rw [hrec] at this
        exact this h

/-- Lifting `processChunk_mem_invariant` to the chunk sequence. -/
theorem processChunks_mem_invariant (dl : String → Except DownloadResult DownloadResult)
    (total : Nat) (hdl : ∀ u, payloadInv (dl u) = true) :
    ∀ (chs : List (List String)) (c : Nat) (r : DownloadResult),
      r ∈ (processChunks dl total chs c).1 → resInvariant r = true := by
  intro chs
  induction chs with
  | nil => intro c r hr; simp [processChunks] at hr
  | cons ch chs ih =>
    intro c r hr
    rcases h1 : processChunk dl total ch c with ⟨rs, ps, c1⟩
    rcases h2 : processChunks dl total chs c1 with ⟨rs2, ps2, c2⟩
    simp [processChunks, h1, h2] at hr
    rcases hr with h | h
    · have := processChunk_mem_invariant dl total hdl ch c r
      rw [h1] at this
      exact this (by simp [h])
    · have := ih c1 r
      rw [h2] at this
      exact this (by simp [h])

/-- C9: every `DownloadResult` the embedded public operations produce
satisfies the invariant — `success=true` carries a non-empty `filePath` and
`success=false` a non-empty `message`.  This holds for both payloads of the
YouTube backend (resolved or rejected), for the Instagram backend, for the
dispatcher's `download` (whose residual backends are quantified over), and
for every entry of a `batchDownload` run through that dispatcher. -/
theorem c9_result_invariant (bk : BackendBehavior)
    (hbk : ∀ p url opts, payloadInv (bk p url opts) = true) :
    (∀ (url : String) (opts : DownloadOptions) (env : YtEnv),
      payloadInv (ytDownload url opts env) = true) ∧
    (∀ (url : String) (opts : DownloadOptions) (env : IgEnv),
      payloadInv (igDownload url opts env) = true) ∧
    (∀ (url : String) (opts : DownloadOptions),
      payloadInv (vdDownload bk url opts) = true) ∧
    (∀ (urls : List String) (conc : Nat) (opts : DownloadOptions)
       (r : DownloadResult),
      r ∈ (batchDownload urls conc (fun u => vdDownload bk u opts)).1 →
        resInvariant r = true) := by
  have hyt : ∀ (url : String) (opts : DownloadOptions) (env : YtEnv),
      payloadInv (ytDownload url opts env) = true := by
    intro url opts env
    cases h1 : isYouTubeURL url <;> cases h2 : env.fetchInfo <;>
      cases h3 : env.stream <;>
      simp [ytDownload, ytGetInfo, h1, h2, h3, payloadInv, exceptPayload,
        resInvariant, bne_iff_ne] <;>
      first
        | exact append_left_ne_empty _ _ (by decide)
        | exact pathJoin_ne_empty _ _
  have hig : ∀ (url : String) (opts : DownloadOptions) (env : IgEnv),
      payloadInv (igDownload url opts env) = true := by
    intro url opts env
    cases h1 : isInstagramURL url <;> cases h2 : env.pageHtml <;>
      simp [igDownload, igGetInfo, h1, h2, payloadInv, exceptPayload,
        resInvariant, bne_iff_ne]
    exact append_left_ne_empty _ _ (by decide)
  have hvd : ∀ (url : String) (opts : DownloadOptions),
      payloadInv (vdDownload bk url opts) = true := by
    intro url opts
    cases h : getDownloaderForUrl url with
    | none => simp [vdDownload, h, payloadInv, exceptPayload, resInvariant]
    | some p => simpa [vdDownload, h] using hbk p url opts
  refine ⟨hyt, hig, hvd, ?_⟩
  intro urls conc opts r hr
  by_cases h0 : (urls.filter isSupported).length = 0
  · simp [batchDownload, h0] at hr
  · rw [batchDownload_eq urls conc _ h0] at hr
    exact processChunks_mem_invariant _ _ (fun u => hvd u opts) _ _ _ hr

/-- Witness for C9: the invariant instantiated with a concrete stub backend
and evaluated on the dispatcher's unsupported-URL result. -/
theorem c9_result_invariant_witness :
    payloadInv (vdDownload cStubBackend "nope" {}) = true :=
  (c9_result_invariant cStubBackend (fun _ _ _ => rfl)).2.2.1 "nope" {}

end Lotus
